import Mathlib

/-!
Verification development for the Apache `mod_websocket` module
(`src/mod_websocket.c`).  The C source is shallowly embedded below:

* the handshake guard of `mod_websocket_method_handler` (lines 626-648),
* the subprotocol tokenizer `mod_websocket_parse_protocol` (apr_strtok on
  the separator set comma/space/tab),
* the accept-key computation `mod_websocket_handshake`
  (base64(SHA1(key ++ GUID))),
* the outbound encoder `mod_websocket_plugin_send` and `mod_websocket_plugin_close`,
* the data-framing state machine `mod_websocket_data_framing`, modelled as a
  byte-at-a-time step function over an explicit state record (the C code
  processes input in 4096-byte blocks, but every state transition is
  resumable at block boundaries, so the byte-at-a-time presentation is
  equivalent; `realloc` is modelled as always succeeding),
* the `on_connect` / `on_disconnect` control flow of the method handler
  (lines 699-728).

Machine integers are modelled by `Nat`/`Int`; the C bit-field macros
`FRAME_GET_*` are expressed with division and remainder
(`(b >> k) & 1  =  b / 2^k % 2`, `b & 0x0F = b % 16`, `b & 0x7F = b % 128`),
and payload unmasking keeps the C xor (`^^^`).
-/

set_option maxRecDepth 4000

namespace ModWebsocket

/-! ### Case-insensitive string comparison (`strcasecmp(a,b) == 0`) -/

/-- ASCII lower-casing of a single character, as C `tolower` on A-Z. -/
def lowerChar (c : Char) : Char :=
  if 'A' ≤ c ∧ c ≤ 'Z' then Char.ofNat (c.toNat + 32) else c

/-- Case-insensitive string equality, `strcasecmp(a,b) == 0`. -/
def strcaseEq (a b : String) : Bool :=
  a.toList.map lowerChar == b.toList.map lowerChar

/-! ### Handshake guard of `mod_websocket_method_handler` (lines 626-653) -/

/-- The inbound request fields inspected by `mod_websocket_method_handler`.
`none` models a missing header (`apr_table_get` returning NULL). -/
structure UpgradeRequest where
  handlerName : String
  methodIsGet : Bool
  hasPath : Bool
  upgrade : Option String
  connection : Option String
  host : Option String
  secWebSocketKey : Option String
  secWebSocketOrigin : Option String
  secWebSocketVersion : Option String
deriving DecidableEq

/-- Guard structure of `mod_websocket_method_handler` (lines 626-653):
`true` means the handler proceeds with the upgrade (the `return OK` path),
`false` means it returns `DECLINED`.  `pluginConfigured` models
`conf != NULL && conf->plugin != NULL`. -/
def methodHandlerAccepts (r : UpgradeRequest) (pluginConfigured : Bool) : Bool :=
  (r.handlerName == "websocket-handler") && r.methodIsGet && r.hasPath &&
  (match r.upgrade, r.connection with
   | some u, some c =>
     strcaseEq u "WebSocket" && strcaseEq c "Upgrade" &&
     (match r.host, r.secWebSocketKey, r.secWebSocketOrigin, r.secWebSocketVersion with
      | some _, some _, some _, some v => strcaseEq v "7" && pluginConfigured
      | _, _, _, _ => false)
   | _, _ => false)

/-! ### The acceptance predicate as claim C1 words it (refinement comparison) -/

/-- Split a character list at every occurrence of `sep` (plain comma split,
used only to state the claim's reading of the `Connection` header). -/
def splitCharList (sep : Char) : List Char → List (List Char)
  | [] => [[]]
  | c :: cs =>
    if c = sep then [] :: splitCharList sep cs
    else
      match splitCharList sep cs with
      | [] => [[c]]
      | t :: ts => (c :: t) :: ts

/-- True for ASCII space and horizontal tab. -/
def isSpTab (c : Char) : Bool := c = ' ' || c = '\t'

/-- Trim ASCII spaces and tabs from both ends. -/
def trimSpTab (l : List Char) : List Char :=
  ((l.dropWhile isSpTab).reverse.dropWhile isSpTab).reverse

/-- Claim C1's reading of the `Connection` requirement: the header value,
split on commas with each token trimmed, contains the token `Upgrade`
case-insensitively. -/
def connectionHasUpgradeToken (c : String) : Bool :=
  (splitCharList ',' c.toList).any fun t => strcaseEq (String.mk (trimSpTab t)) "Upgrade"

/-- The handshake acceptance condition exactly as claim C1 states it
(method GET; `Upgrade` equals `websocket` case-insensitively; `Connection`
contains the token `Upgrade`; `Host` present; `Sec-WebSocket-Key` present;
`Sec-WebSocket-Version` equals `7`; origin and subprotocol optional).
This is a spec-side definition used only to compare against
`methodHandlerAccepts`. -/
def claimC1Accepts (r : UpgradeRequest) : Bool :=
  r.methodIsGet &&
  (match r.upgrade with
   | some u => strcaseEq u "websocket"
   | none => false) &&
  (match r.connection with
   | some c => connectionHasUpgradeToken c
   | none => false) &&
  r.host.isSome && r.secWebSocketKey.isSome &&
  (match r.secWebSocketVersion with
   | some v => v == "7"
   | none => false)

/-- A request carrying every header of the required form except
`Sec-WebSocket-Origin`, which is absent. -/
def requestWithoutOrigin : UpgradeRequest :=
  { handlerName := "websocket-handler", methodIsGet := true, hasPath := true,
    upgrade := some "websocket", connection := some "Upgrade",
    host := some "example.com", secWebSocketKey := some "dGhlIHNhbXBsZSBub25jZQ==",
    secWebSocketOrigin := none, secWebSocketVersion := some "7" }

/-- A request carrying every header the code requires, origin included. -/
def requestAllHeaders : UpgradeRequest :=
  { requestWithoutOrigin with secWebSocketOrigin := some "http://example.com" }

/-! ### Subprotocol parsing, `mod_websocket_parse_protocol` (lines 354-368) -/

/-- The separator set of the `apr_strtok` call in
`mod_websocket_parse_protocol`: the C string is a comma, a space and a tab. -/
def isProtoSep (c : Char) : Bool := c = ',' || c = ' ' || c = '\t'

/-- Worker for `strtokAll`: `acc` holds the current token, reversed. -/
def strtokGo (p : Char → Bool) : List Char → List Char → List (List Char)
  | [], acc => if acc = [] then [] else [acc.reverse]
  | c :: cs, acc =>
    if p c then
      if acc = [] then strtokGo p cs [] else acc.reverse :: strtokGo p cs []
    else strtokGo p cs (c :: acc)

/-- Tokenization performed by repeated `apr_strtok(_, ", \t", _)`:
maximal nonempty runs of non-separator characters, in order. -/
def strtokAll (p : Char → Bool) (l : List Char) : List (List Char) :=
  strtokGo p l []

/-- The protocol list built by `mod_websocket_parse_protocol`; exposed to the
plugin through `mod_websocket_protocol_count` / `mod_websocket_protocol_index`. -/
def parseProtocols (s : String) : List String :=
  (strtokAll isProtoSep s.toList).map fun l => String.mk l

/-- `mod_websocket_protocol_count` after parsing the offer `s`
(0 when the parse produced no tokens, since `state->protocols` stays NULL). -/
def protocolCount (s : String) : Nat := (parseProtocols s).length

/-- The default `Sec-WebSocket-Protocol` response header pre-selected by
`mod_websocket_method_handler` (lines 686-693): the first parsed protocol,
set via `mod_websocket_protocol_set` before `on_connect` runs. -/
def defaultProtocolHeader (s : String) : Option String := (parseProtocols s).head?

/-- The split that claim C8 describes: on commas only, each name trimmed of
ASCII spaces and tabs.  Spec-side definition for comparison. -/
def claimC8Split (s : String) : List String :=
  (splitCharList ',' s.toList).map fun t => String.mk (trimSpTab t)

/-! ### Accept key: `mod_websocket_handshake` (lines 330-347), SHA-1, base64 -/

/-- 2^32, the modulus of the 32-bit arithmetic in `apr_sha1`. -/
def m32 : Nat := 4294967296

/-- 32-bit left rotation of a value `x < 2^32`. -/
def rotl32 (n x : Nat) : Nat := x * 2 ^ n % m32 + x / 2 ^ (32 - n)

/-- SHA-1 round function (selection / parity / majority). -/
def sha1f (t b c d : Nat) : Nat :=
  if t < 20 then b &&& c ||| ((m32 - 1) ^^^ b) &&& d
  else if t < 40 then b ^^^ c ^^^ d
  else if t < 60 then b &&& c ||| b &&& d ||| c &&& d
  else b ^^^ c ^^^ d

/-- SHA-1 round constants. -/
def sha1k (t : Nat) : Nat :=
  if t < 20 then 0x5A827999
  else if t < 40 then 0x6ED9EBA1
  else if t < 60 then 0x8F1BBCDC
  else 0xCA62C1D6

/-- Big-endian 32-bit words from a byte list. -/
def bytesToWords : List Nat → List Nat
  | b0 :: b1 :: b2 :: b3 :: rest =>
    (((b0 * 256 + b1) * 256 + b2) * 256 + b3) :: bytesToWords rest
  | _ => []

/-- One step of the SHA-1 message-schedule extension. -/
def sha1extendStep (w : List Nat) : List Nat :=
  let n := w.length
  w ++ [rotl32 1 (w.getD (n - 3) 0 ^^^ w.getD (n - 8) 0 ^^^ w.getD (n - 14) 0 ^^^ w.getD (n - 16) 0)]

/-- Iterate the message-schedule extension. -/
def sha1extendN : Nat → List Nat → List Nat
  | 0, w => w
  | k + 1, w => sha1extendN k (sha1extendStep w)

/-- One SHA-1 round on the five-word state. -/
def sha1round (w : List Nat) (t : Nat) : Nat × Nat × Nat × Nat × Nat → Nat × Nat × Nat × Nat × Nat
  | (a, b, c, d, e) =>
    ((rotl32 5 a + sha1f t b c d + e + w.getD t 0 + sha1k t) % m32, a, rotl32 30 b, c, d)

/-- Run rounds `80 - k` up to `79`. -/
def sha1rounds (w : List Nat) : Nat → Nat × Nat × Nat × Nat × Nat → Nat × Nat × Nat × Nat × Nat
  | 0, st => st
  | k + 1, st => sha1rounds w k (sha1round w (80 - (k + 1)) st)

/-- SHA-1 compression of one 64-byte block. -/
def sha1compress (h : Nat × Nat × Nat × Nat × Nat) (block : List Nat) : Nat × Nat × Nat × Nat × Nat :=
  let w := sha1extendN 64 (bytesToWords block)
  match h, sha1rounds w 80 h with
  | (h0, h1, h2, h3, h4), (a, b, c, d, e) =>
    ((h0 + a) % m32, (h1 + b) % m32, (h2 + c) % m32, (h3 + d) % m32, (h4 + e) % m32)

/-- Split into 64-byte blocks (`fuel` bounds the recursion by the list
length, keeping the definition structural). -/
def chunks64Go : Nat → List Nat → List (List Nat)
  | 0, _ => []
  | _, [] => []
  | fuel + 1, c :: rest => ((c :: rest).take 64) :: chunks64Go fuel ((c :: rest).drop 64)

/-- Split into 64-byte blocks. -/
def chunks64 (l : List Nat) : List (List Nat) := chunks64Go l.length l

/-- Big-endian 8-byte encoding. -/
def be8 (n : Nat) : List Nat :=
  [n / 2 ^ 56 % 256, n / 2 ^ 48 % 256, n / 2 ^ 40 % 256, n / 2 ^ 32 % 256,
   n / 2 ^ 24 % 256, n / 2 ^ 16 % 256, n / 2 ^ 8 % 256, n % 256]

/-- Big-endian 4-byte encoding. -/
def be4 (n : Nat) : List Nat := [n / 2 ^ 24 % 256, n / 2 ^ 16 % 256, n / 2 ^ 8 % 256, n % 256]

/-- SHA-1 padding: append 0x80, zeros, and the 64-bit bit length. -/
def sha1pad (msg : List Nat) : List Nat :=
  msg ++ 0x80 :: List.replicate ((64 - (msg.length + 9) % 64) % 64) 0 ++ be8 (msg.length * 8)

/-- SHA-1 of a byte list, as computed by the `apr_sha1` calls in
`mod_websocket_handshake`. -/
def sha1 (msg : List Nat) : List Nat :=
  match (chunks64 (sha1pad msg)).foldl sha1compress
      (0x67452301, 0xEFCDAB89, 0x98BADCFE, 0x10325476, 0xC3D2E1F0) with
  | (a, b, c, d, e) => be4 a ++ be4 b ++ be4 c ++ be4 d ++ be4 e

/-- The base64 alphabet used by `apr_base64_encode_binary`. -/
def b64char (n : Nat) : Char :=
  "ABCDEFGHIJKLMNOPQRSTUVWXYZabcdefghijklmnopqrstuvwxyz0123456789+/".toList.getD n 'A'

/-- Standard base64 encoding with padding. -/
def b64encodeBytes : List Nat → List Char
  | b0 :: b1 :: b2 :: rest =>
    b64char (b0 / 4) :: b64char (b0 % 4 * 16 + b1 / 16) ::
      b64char (b1 % 16 * 4 + b2 / 64) :: b64char (b2 % 64) :: b64encodeBytes rest
  | [b0, b1] => [b64char (b0 / 4), b64char (b0 % 4 * 16 + b1 / 16), b64char (b1 % 16 * 4), '=']
  | [b0] => [b64char (b0 / 4), b64char (b0 % 4 * 16), '=', '=']
  | [] => []

/-- ASCII bytes of a string. -/
def strBytes (s : String) : List Nat := s.toList.map Char.toNat

/-- The WebSocket GUID appended to the client key (`WEBSOCKET_GUID`). -/
def websocketGUID : String := "258EAFA5-E914-47DA-95CA-C5AB0DC85B11"

/-- The `Sec-WebSocket-Accept` value computed by `mod_websocket_handshake`:
base64 of the SHA-1 of the raw client key with the GUID appended. -/
def handshakeAcceptValue (key : String) : String :=
  String.mk (b64encodeBytes (sha1 (strBytes key ++ strBytes websocketGUID)))

/-! ### Outbound frames: `mod_websocket_plugin_send` (lines 227-295) -/

/-- The `MESSAGE_TYPE_*` values of the plugin interface (the C `switch` in
`mod_websocket_plugin_send` maps any other value, the `default` label, to a
CLOSE as well; the five named types cover the claims). -/
inductive MessageType where
  | text
  | binary
  | ping
  | pong
  | close
deriving DecidableEq

/-- The wire opcode chosen by the `switch (type)` in `mod_websocket_plugin_send`. -/
def opcodeOfType : MessageType → Nat
  | .text => 1
  | .binary => 2
  | .ping => 9
  | .pong => 10
  | .close => 8

/-- The part of `WebSocketState` that `mod_websocket_plugin_send` reads under
the mutex: `hasSink` models `state->r != NULL && state->obb != NULL`. -/
structure SendState where
  hasSink : Bool
  closing : Bool
deriving DecidableEq

/-- Result of one `mod_websocket_plugin_send` call: the state afterwards, the
bytes handed to `ap_fwrite` (header then payload), and the returned
`written` count. -/
structure SendOutcome where
  state : SendState
  wire : List Nat
  ret : Nat
deriving DecidableEq

/-- Frame header built in `mod_websocket_plugin_send` (lines 264-281):
byte 0 is `FRAME_SET_FIN(1) | FRAME_SET_OPCODE(opcode)`; the length uses the
7-bit, 16-bit or 64-bit form with `FRAME_SET_MASK(0)`, the extended bytes
being `FRAME_SET_LENGTH(L, i) = L / 2^(8*i) % 256` from the high index down. -/
def wsFrameHeader (opcode L : Nat) : List Nat :=
  let b0 := 128 + opcode % 16
  if L < 126 then [b0, L % 256]
  else if L < 65536 then [b0, 126, L / 2 ^ 8 % 256, L % 256]
  else [b0, 127, L / 2 ^ 56 % 256, L / 2 ^ 48 % 256, L / 2 ^ 40 % 256, L / 2 ^ 32 % 256,
        L / 2 ^ 24 % 256, L / 2 ^ 16 % 256, L / 2 ^ 8 % 256, L % 256]

/-- `mod_websocket_plugin_send`.  `buf = none` models a NULL buffer (payload
length 0).  `payloadWriteOk` models the checked `ap_fwrite` of the payload and
`flushOk` the `ap_fflush` result; the header `ap_fwrite` result is ignored by
the C code.  With the sink absent or `closing` already set, the body is
skipped and 0 is returned without touching the sink. -/
def plugin_send (st : SendState) (ty : MessageType) (buf : Option (List Nat))
    (payloadWriteOk flushOk : Bool) : SendOutcome :=
  if st.hasSink && !st.closing then
    let closing' := st.closing || (ty == .close)
    let payload := buf.getD []
    let L := payload.length
    let written0 := if 0 < L && payloadWriteOk then L else 0
    let written := if flushOk then written0 else 0
    { state := { hasSink := st.hasSink, closing := closing' },
      wire := wsFrameHeader (opcodeOfType ty) L ++ (if 0 < L then payload else []),
      ret := written }
  else { state := st, wire := [], ret := 0 }

/-- `mod_websocket_plugin_close`: send a CLOSE with a NULL buffer. -/
def plugin_close (st : SendState) (payloadWriteOk flushOk : Bool) : SendOutcome :=
  plugin_send st .close none payloadWriteOk flushOk

/-- One queued call to `mod_websocket_plugin_send`. -/
structure SendCall where
  ty : MessageType
  buf : Option (List Nat)
  payloadWriteOk : Bool
  flushOk : Bool

/-- Run a sequence of `plugin_send` calls, accumulating the bytes handed to
the sink and the list of returned counts. -/
def sendSeq (st : SendState) : List SendCall → SendState × List Nat × List Nat
  | [] => (st, [], [])
  | c :: cs =>
    let o := plugin_send st c.ty c.buf c.payloadWriteOk c.flushOk
    let r := sendSeq o.state cs
    (r.1, o.wire ++ r.2.1, o.ret :: r.2.2)

/-! ### `on_connect` / `on_disconnect` control flow (lines 699-728) -/

/-- Observable milestones of the post-handshake part of
`mod_websocket_method_handler`. -/
inductive UpgradeEvent where
  | interim101
  | framingLoop
  | disconnect (priv : Option Nat)
deriving DecidableEq

/-- Control flow of lines 699-728.  `onConnect = none` models a plugin with no
`on_connect` member; `some r` models `on_connect` returning `r` (with `none`
for NULL).  `plugin_private` starts as NULL.  Returns the event trace and the
private value in use.  The upgrade proceeds when `on_connect` is absent or
returned non-NULL; then the 101 interim response is sent, the data-framing
loop runs, and `on_disconnect` (when the plugin has one) is called once with
the private value. -/
def connectPhase (onConnect : Option (Option Nat)) (hasOnDisconnect : Bool) :
    List UpgradeEvent × Option Nat :=
  match onConnect with
  | none =>
    ([.interim101, .framingLoop] ++ (if hasOnDisconnect then [.disconnect none] else []), none)
  | some (some v) =>
    ([.interim101, .framingLoop] ++ (if hasOnDisconnect then [.disconnect (some v)] else []),
     some v)
  | some none => ([], none)

/-! ### The data-framing state machine, `mod_websocket_data_framing` (lines 381-618) -/

/-- The `DATA_FRAMING_*` states that persist across input bytes
(`DATA_FRAMING_EXTENSION_DATA` is transient — `extension_bytes_remaining` is
always 0 — and is folded into the transitions). -/
inductive FramingState where
  | START
  | PAYLOAD_LENGTH
  | PAYLOAD_LENGTH_EXT
  | MASK
  | APPLICATION_DATA
  | CLOSE
deriving DecidableEq

/-- `WebSocketFrameData`: the buffer (`application_data` up to
`application_data_offset`, as a list) plus the remembered `fin` and `opcode`. -/
structure WebSocketFrameData where
  application_data : List Nat
  fin : Bool
  opcode : Nat
deriving DecidableEq

/-- The local state of `mod_websocket_data_framing`.  `frame_is_control`
models the `frame` pointer (`true` for `&control_frame`). -/
structure DataFramingState where
  framing_state : FramingState
  payload_length : Int
  payload_length_bytes_remaining : Nat
  mask : List Nat
  mask_index : Nat
  mask_offset : Nat
  masking : Bool
  fin : Bool
  opcode : Nat
  message_frame : WebSocketFrameData
  control_frame : WebSocketFrameData
  frame_is_control : Bool
deriving DecidableEq

/-- Observable callbacks issued from inside the framing loop: an
`on_message` delivery, or a `mod_websocket_plugin_send` of a control reply
(the PONG answering a PING). -/
inductive WsEvent where
  | message (ty : MessageType) (data : List Nat)
  | send (ty : MessageType) (data : List Nat)
deriving DecidableEq

/-- The hard-coded `payload_limit` (32 MiB). -/
def payloadLimit : Int := 33554432

/-- The frame currently pointed to by `frame`. -/
def curFrame (s : DataFramingState) : WebSocketFrameData :=
  if s.frame_is_control then s.control_frame else s.message_frame

/-- Store back through the `frame` pointer. -/
def setCurFrame (s : DataFramingState) (fd : WebSocketFrameData) : DataFramingState :=
  if s.frame_is_control then { s with control_frame := fd } else { s with message_frame := fd }

/-- End-of-frame dispatch (lines 554-593, the `payload_length == 0` branch):
choose the message type from the effective opcode, answer PING with a PONG
send, deliver `on_message` when `fin` is set and the type is valid, and
either transition to CLOSE or back to START (releasing the buffer when the
frame had `fin`). -/
def dispatchFrame (s : DataFramingState) : DataFramingState × List WsEvent :=
  let ad := (curFrame s).application_data
  let r : Bool × List WsEvent × Option MessageType :=
    match s.opcode with
    | 1 => (false, [], some .text)
    | 2 => (false, [], some .binary)
    | 8 => (true, [], none)
    | 9 => (false, [.send .pong ad], none)
    | 10 => (false, [], none)
    | _ => (true, [], none)
  let evs := r.2.1 ++ (match r.2.2 with
    | some ty => if s.fin then [.message ty ad] else []
    | none => [])
  if r.1 then ({ s with framing_state := .CLOSE }, evs)
  else if s.fin then
    (setCurFrame { s with framing_state := .START }
      { curFrame s with application_data := [] }, evs)
  else ({ s with framing_state := .START }, evs)

/-- Entry into `DATA_FRAMING_EXTENSION_DATA` / `DATA_FRAMING_APPLICATION_DATA`
(lines 517-528): the buffer growth (`realloc`) is modelled as succeeding, and
a frame with no remaining payload dispatches immediately. -/
def settleApplicationData (s : DataFramingState) : DataFramingState × List WsEvent :=
  let s := { s with framing_state := .APPLICATION_DATA }
  if s.payload_length = 0 then dispatchFrame s else (s, [])

/-- Completion check of `DATA_FRAMING_PAYLOAD_LENGTH_EXT` (lines 486-497):
once all length bytes are in, validate the length against `payload_limit`
and move to reading the mask (the `masking == 0` branch is unreachable here
because an unmasked frame was already rejected, but is kept faithful). -/
def settlePayloadLengthExt (s : DataFramingState) : DataFramingState × List WsEvent :=
  if s.payload_length_bytes_remaining = 0 then
    if s.payload_length < 0 ∨ payloadLimit < s.payload_length then
      ({ s with framing_state := .CLOSE }, [])
    else if s.masking then ({ s with framing_state := .MASK }, [])
    else settleApplicationData s
  else (s, [])

/-- One byte of input through the `switch (framing_state)` of
`mod_websocket_data_framing`.  Bit fields are read with the `FRAME_GET_*`
macros expressed arithmetically: FIN `b / 128 % 2`, RSV1-3
`b / 64 % 2`, `b / 32 % 2`, `b / 16 % 2`, opcode `b % 16`, MASK
`b / 128 % 2`, 7-bit length `b % 128`. -/
def stepByte (s : DataFramingState) (b : Nat) : DataFramingState × List WsEvent :=
  match s.framing_state with
  | .START =>
    if b / 64 % 2 ≠ 0 ∨ b / 32 % 2 ≠ 0 ∨ b / 16 % 2 ≠ 0 then
      ({ s with framing_state := .CLOSE }, [])
    else
      let fin := b / 128 % 2 = 1
      let op := b % 16
      if 8 ≤ op then
        if fin then
          ({ s with fin := fin, opcode := op, frame_is_control := true,
                    control_frame := { s.control_frame with opcode := op },
                    framing_state := .PAYLOAD_LENGTH, payload_length := 0,
                    payload_length_bytes_remaining := 0 }, [])
        else ({ s with framing_state := .CLOSE }, [])
      else if op ≠ 0 then
        if s.message_frame.fin then
          ({ s with fin := fin, opcode := op, frame_is_control := false,
                    message_frame := { s.message_frame with opcode := op, fin := fin },
                    framing_state := .PAYLOAD_LENGTH, payload_length := 0,
                    payload_length_bytes_remaining := 0 }, [])
        else ({ s with framing_state := .CLOSE }, [])
      else if s.message_frame.fin ∨ s.message_frame.opcode = 0 then
        ({ s with framing_state := .CLOSE }, [])
      else
        ({ s with fin := fin, opcode := s.message_frame.opcode, frame_is_control := false,
                  message_frame := { s.message_frame with fin := fin },
                  framing_state := .PAYLOAD_LENGTH, payload_length := 0,
                  payload_length_bytes_remaining := 0 }, [])
  | .PAYLOAD_LENGTH =>
    let pl0 := b % 128
    let masking := b / 128 % 2 = 1
    let pr : Int × Nat := if pl0 = 126 then (0, 2) else if pl0 = 127 then (0, 8) else ((pl0 : Int), 0)
    if ¬masking ∨ (8 ≤ s.opcode ∧ 125 < pr.1) then
      ({ s with framing_state := .CLOSE }, [])
    else
      settlePayloadLengthExt
        { s with payload_length := pr.1, payload_length_bytes_remaining := pr.2,
                 masking := masking, framing_state := .PAYLOAD_LENGTH_EXT }
  | .PAYLOAD_LENGTH_EXT =>
    settlePayloadLengthExt
      { s with payload_length := s.payload_length * 256 + (b : Int),
               payload_length_bytes_remaining := s.payload_length_bytes_remaining - 1 }
  | .MASK =>
    let s1 := { s with mask := s.mask.set s.mask_index b, mask_index := s.mask_index + 1 }
    if s1.mask_index = 4 then
      settleApplicationData
        { s1 with mask_index := 0, mask_offset := 0,
                  masking := if s1.mask = [0, 0, 0, 0] then false else s1.masking }
    else (s1, [])
  | .APPLICATION_DATA =>
    let v := if s.masking then b ^^^ s.mask.getD (s.mask_offset % 4) 0 else b
    let s1 := setCurFrame s { curFrame s with application_data := (curFrame s).application_data ++ [v] }
    let s2 := { s1 with mask_offset := if s1.masking then s1.mask_offset + 1 else s1.mask_offset,
                        payload_length := s1.payload_length - 1 }
    if s2.payload_length = 0 then dispatchFrame s2 else (s2, [])
  | .CLOSE => (s, [])

/-- Drive the state machine over a byte stream.  Once the state reaches
`DATA_FRAMING_CLOSE` the remaining bytes produce nothing (in the C code the
rest of the block falls into the `default` label and the outer loop exits). -/
def processBytes : DataFramingState → List Nat → DataFramingState × List WsEvent
  | s, [] => (s, [])
  | s, b :: bs =>
    if s.framing_state = .CLOSE then (s, [])
    else
      let r1 := stepByte s b
      let r2 := processBytes r1.1 bs
      (r2.1, r1.2 ++ r2.2)

/-- The initial local state of `mod_websocket_data_framing` (lines 392-400). -/
def initialFramingState : DataFramingState :=
  { framing_state := .START, payload_length := 0, payload_length_bytes_remaining := 0,
    mask := [0, 0, 0, 0], mask_index := 0, mask_offset := 0, masking := false,
    fin := false, opcode := 255,
    message_frame := { application_data := [], fin := true, opcode := 0 },
    control_frame := { application_data := [], fin := true, opcode := 8 },
    frame_is_control := true }

/-! ### Client-side frame encoding (to state the claims about valid streams) -/

/-- Mask (or unmask) a payload with a 4-byte key starting at per-frame byte
index `off`: byte `i` is xored with `key[(off+i) mod 4]`. -/
def maskBytes (key : List Nat) : Nat → List Nat → List Nat
  | _, [] => []
  | off, p :: ps => (p ^^^ key.getD (off % 4) 0) :: maskBytes key (off + 1) ps

/-- A client frame before wire encoding. -/
structure WireFrame where
  fin : Bool
  opcode : Nat
  key : List Nat
  payload : List Nat
deriving DecidableEq

/-- Length field of a client frame (MASK bit set): 7-bit form below 126,
else the 2-byte or 8-byte big-endian extended form. -/
def encodeLen (L : Nat) : List Nat :=
  if L < 126 then [128 + L]
  else if L < 65536 then [254, L / 2 ^ 8 % 256, L % 256]
  else [255, L / 2 ^ 56 % 256, L / 2 ^ 48 % 256, L / 2 ^ 40 % 256, L / 2 ^ 32 % 256,
        L / 2 ^ 24 % 256, L / 2 ^ 16 % 256, L / 2 ^ 8 % 256, L % 256]

/-- Wire bytes of one masked client frame: FIN/opcode byte, length field,
4-byte key, masked payload. -/
def encodeFrame (f : WireFrame) : List Nat :=
  ((if f.fin then 128 else 0) + f.opcode % 16) :: encodeLen f.payload.length
    ++ f.key ++ maskBytes f.key 0 f.payload

/-- Concatenated wire bytes of a frame sequence. -/
def framesBytes : List WireFrame → List Nat
  | [] => []
  | f :: fs => encodeFrame f ++ framesBytes fs

/-- The bytes the machine appends while consuming ciphertext `cs` in
`DATA_FRAMING_APPLICATION_DATA`, starting at mask offset `off`:
each byte xored with `mask[(off+i) mod 4]` when `mk` is set, verbatim
otherwise. -/
def unmaskSeq (mk : Bool) (mask : List Nat) : Nat → List Nat → List Nat
  | _, [] => []
  | off, c :: cs => (if mk then c ^^^ mask.getD (off % 4) 0 else c) :: unmaskSeq mk mask (off + 1) cs

/-- Append `l` to the application data of the frame selected by `cur`
(`true` for the control frame). -/
def withAppended (msg ctl : WebSocketFrameData) (cur : Bool) (l : List Nat) :
    WebSocketFrameData × WebSocketFrameData :=
  if cur then (msg, { ctl with application_data := ctl.application_data ++ l })
  else ({ msg with application_data := msg.application_data ++ l }, ctl)

/-- Big-endian accumulation of extended length bytes, as performed by the
`DATA_FRAMING_PAYLOAD_LENGTH_EXT` loop: `payload_length = payload_length * 256 + byte`. -/
def beInt : Int → List Nat → Int
  | acc, [] => acc
  | acc, b :: bs => beInt (acc * 256 + (b : Int)) bs

/-- The machine state at the end of a masked frame's payload, just before the
end-of-frame dispatch (used to phrase the per-frame processing lemmas). -/
def bodyExit (key payload : List Nat) (fin0 : Bool) (op : Nat)
    (msg ctl : WebSocketFrameData) (cur : Bool) : DataFramingState :=
  ⟨.APPLICATION_DATA, 0, 0, key, 0, (if key = [0, 0, 0, 0] then 0 else payload.length),
   (if key = [0, 0, 0, 0] then false else true), fin0, op,
   (withAppended msg ctl cur payload).1, (withAppended msg ctl cur payload).2, cur⟩

/-! ## Theorems -/

/-! ### Helper lemmas -/

theorem strcaseEq_websocket (u : String) :
    strcaseEq u "WebSocket" = strcaseEq u "websocket" := by
  simp only [strcaseEq]
  rw [show "WebSocket".toList.map lowerChar = "websocket".toList.map lowerChar from by decide]

theorem sendSeq_after_closing (calls : List SendCall) (st : SendState)
    (h : st.closing = true) :
    sendSeq st calls = (st, [], List.replicate calls.length 0) := by
  induction calls with
  | nil => simp [sendSeq]
  | cons c cs ih =>
    have hsend : plugin_send st c.ty c.buf c.payloadWriteOk c.flushOk =
        { state := st, wire := [], ret := 0 } := by
      simp [plugin_send, h]
    simp [sendSeq, hsend, ih, List.replicate_succ]

theorem strtokGo_all_ok (p : Char → Bool) (l : List Char) : ∀ acc : List Char,
    (acc.all fun c => !p c) = true →
    ((strtokGo p l acc).all fun t => !t.isEmpty && t.all fun c => !p c) = true := by
  induction l with
  | nil =>
    intro acc hacc
    by_cases h0 : acc = [] <;> simp [strtokGo, h0] <;> simp_all
  | cons c cs ih =>
    intro acc hacc
    by_cases hpc : p c
    · by_cases h0 : acc = []
      · simpa [strtokGo, hpc, h0] using ih [] (by simp)
      · simp only [strtokGo, hpc, if_true, h0, if_false, List.all_cons]
        refine (Bool.and_eq_true _ _).mpr ⟨?_, ih [] (by simp)⟩
        simp_all
    · simp only [strtokGo, hpc, if_false]
      exact ih (c :: acc) (by simp_all)

theorem strtokGo_join_sublist (p : Char → Bool) (l : List Char) : ∀ acc : List Char,
    List.Sublist (strtokGo p l acc).join (acc.reverse ++ l) := by
  induction l with
  | nil =>
    intro acc
    by_cases h0 : acc = [] <;> simp [strtokGo, h0]
  | cons c cs ih =>
    intro acc
    by_cases hpc : p c
    · by_cases h0 : acc = []
      · subst h0
        simpa [strtokGo, hpc] using (ih []).trans (List.sublist_cons_self c cs)
      · simp only [strtokGo, hpc, if_true, h0, if_false, List.join]
        have h1 : List.Sublist (strtokGo p cs []).join (c :: cs) :=
          (ih []).trans (List.sublist_cons_self c cs)
        simpa using (List.Sublist.refl acc.reverse).append h1
    · simp only [strtokGo, hpc, if_false]
      have := ih (c :: acc)
      simpa [List.append_assoc] using this

/-! ### Helper lemmas for the framing machine -/

theorem processBytes_closed (bs : List Nat) (s : DataFramingState)
    (h : s.framing_state = .CLOSE) : processBytes s bs = (s, []) := by
  cases bs <;> simp [processBytes, h]

theorem processBytes_append (xs : List Nat) : ∀ (ys : List Nat) (s : DataFramingState),
    processBytes s (xs ++ ys) =
      ((processBytes (processBytes s xs).1 ys).1,
       (processBytes s xs).2 ++ (processBytes (processBytes s xs).1 ys).2) := by
  induction xs with
  | nil => intro ys s; simp [processBytes]
  | cons b bs ih =>
    intro ys s
    by_cases h : s.framing_state = .CLOSE
    · simp [processBytes, h, processBytes_closed _ _ h]
    · simp only [List.cons_append, processBytes, h, if_false]
      simp only [List.append_eq]
      rw [ih]
      simp [List.append_assoc]

theorem processBytes_cons (s : DataFramingState) (b : Nat) (bs : List Nat)
    (h : ¬s.framing_state = .CLOSE) :
    processBytes s (b :: bs) =
      ((processBytes (stepByte s b).1 bs).1,
       (stepByte s b).2 ++ (processBytes (stepByte s b).1 bs).2) := by
  simp [processBytes, h]

theorem withAppended_append (msg ctl : WebSocketFrameData) (cur : Bool) (l1 l2 : List Nat) :
    withAppended (withAppended msg ctl cur l1).1 (withAppended msg ctl cur l1).2 cur l2 =
      withAppended msg ctl cur (l1 ++ l2) := by
  cases cur <;> simp [withAppended, List.append_assoc]

theorem maskBytes_length (key : List Nat) : ∀ (off : Nat) (p : List Nat),
    (maskBytes key off p).length = p.length := by
  intro off p
  induction p generalizing off with
  | nil => rfl
  | cons x xs ih => simp [maskBytes, ih]

theorem unmaskSeq_maskBytes (key : List Nat) : ∀ (p : List Nat) (off : Nat),
    unmaskSeq true key off (maskBytes key off p) = p := by
  intro p
  induction p with
  | nil => intro off; rfl
  | cons x xs ih => intro off; simp [maskBytes, unmaskSeq, Nat.xor_cancel_right, ih]

theorem getD_zeros (i : Nat) : ([0, 0, 0, 0] : List Nat)[i]?.getD 0 = 0 := by
  rcases i with _ | _ | _ | _ | i <;> simp

theorem maskBytes_zero_key : ∀ (p : List Nat) (off : Nat),
    maskBytes [0, 0, 0, 0] off p = p := by
  intro p
  induction p with
  | nil => intro off; rfl
  | cons x xs ih => intro off; simp [maskBytes, getD_zeros, ih]

theorem unmaskSeq_not_masking (mask : List Nat) : ∀ (cs : List Nat) (off : Nat),
    unmaskSeq false mask off cs = cs := by
  intro cs
  induction cs with
  | nil => intro off; rfl
  | cons x xs ih => intro off; simp [unmaskSeq, ih]

theorem withAppended_nil (msg ctl : WebSocketFrameData) (cur : Bool) :
    withAppended msg ctl cur [] = (msg, ctl) := by
  cases cur <;> simp [withAppended]

theorem processBytes_lenext_run (bs : List Nat) (hne : bs ≠ []) : ∀ (rem : Nat)
    (hrem : rem = bs.length) (acc : Int)
    (mask : List Nat) (mi mo : Nat) (fin0 : Bool) (op : Nat)
    (msg ctl : WebSocketFrameData) (cur : Bool) (rest : List Nat),
    0 ≤ beInt acc bs → beInt acc bs ≤ payloadLimit →
    processBytes ⟨.PAYLOAD_LENGTH_EXT, acc, rem, mask, mi, mo, true, fin0, op, msg, ctl, cur⟩
        (bs ++ rest) =
      processBytes ⟨.MASK, beInt acc bs, 0, mask, mi, mo, true, fin0, op, msg, ctl, cur⟩ rest := by
  induction bs with
  | nil => exact absurd rfl hne
  | cons b bs' ih =>
    intro rem hrem acc mask mi mo fin0 op msg ctl cur rest h0 h1
    subst hrem
    rw [List.cons_append, processBytes_cons _ _ _ (by simp)]
    cases bs' with
    | nil =>
      have hstep : stepByte
          ⟨.PAYLOAD_LENGTH_EXT, acc, [b].length, mask, mi, mo, true, fin0, op, msg, ctl, cur⟩ b =
          (⟨.MASK, acc * 256 + (b : Int), 0, mask, mi, mo, true, fin0, op, msg, ctl, cur⟩, []) := by
        have hb0 : ¬(acc * 256 + (b : Int) < 0 ∨ payloadLimit < acc * 256 + (b : Int)) := by
          simp only [beInt] at h0 h1
          omega
        simp [stepByte, settlePayloadLengthExt, hb0]
      rw [hstep]
      simp [beInt]
    | cons b' bs'' =>
      have hstep : stepByte
          ⟨.PAYLOAD_LENGTH_EXT, acc, (b :: b' :: bs'').length, mask, mi, mo, true, fin0, op,
            msg, ctl, cur⟩ b =
          (⟨.PAYLOAD_LENGTH_EXT, acc * 256 + (b : Int), (b' :: bs'').length, mask, mi, mo, true,
            fin0, op, msg, ctl, cur⟩, []) := by
        simp [stepByte, settlePayloadLengthExt]
      rw [hstep]
      rw [ih (by simp) (b' :: bs'').length rfl (acc * 256 + (b : Int)) mask mi mo fin0 op msg
        ctl cur rest (by simpa [beInt] using h0) (by simpa [beInt] using h1)]
      simp [beInt]

theorem processBytes_len_run (L : Nat) (hlim : (L : Int) ≤ payloadLimit)
    (pl0 : Int) (rem0 : Nat) (mask : List Nat) (mi mo : Nat) (mk fin0 : Bool) (op : Nat)
    (msg ctl : WebSocketFrameData) (cur : Bool) (rest : List Nat) :
    processBytes ⟨.PAYLOAD_LENGTH, pl0, rem0, mask, mi, mo, mk, fin0, op, msg, ctl, cur⟩
        (encodeLen L ++ rest) =
      processBytes ⟨.MASK, (L : Int), 0, mask, mi, mo, true, fin0, op, msg, ctl, cur⟩ rest := by
  have hlim' : (L : Int) ≤ 33554432 := hlim
  by_cases h1 : L < 126
  · rw [show encodeLen L = [128 + L] from by simp [encodeLen, h1]]
    rw [List.singleton_append, processBytes_cons _ _ _ (by simp)]
    have e1 : (128 + L) % 128 = L := by omega
    have e2 : (128 + L) / 128 % 2 = 1 := by omega
    have hstep : stepByte
        ⟨.PAYLOAD_LENGTH, pl0, rem0, mask, mi, mo, mk, fin0, op, msg, ctl, cur⟩ (128 + L) =
        (⟨.MASK, (L : Int), 0, mask, mi, mo, true, fin0, op, msg, ctl, cur⟩, []) := by
      simp only [stepByte, e1, e2]
      rw [if_neg (by omega : ¬L = 126), if_neg (by omega : ¬L = 127)]
      have hguard : ¬(¬True ∨ (8 ≤ op ∧ 125 < (((L : Nat) : Int), (0 : Nat)).1)) := by
        simp
        omega
      rw [if_neg hguard]
      have hb0 : ¬((((L : Nat) : Int), (0 : Nat)).1 < 0 ∨
          payloadLimit < (((L : Nat) : Int), (0 : Nat)).1) :=
        show ¬(((L : Nat) : Int) < 0 ∨ (33554432 : Int) < ((L : Nat) : Int)) by omega
      simp [settlePayloadLengthExt, hb0]
    rw [hstep]
    simp
  · by_cases h2 : L < 65536
    · rw [show encodeLen L = [254, L / 2 ^ 8 % 256, L % 256] from by simp [encodeLen, h1, h2]]
      rw [show ([254, L / 2 ^ 8 % 256, L % 256] : List Nat) ++ rest =
        254 :: ([L / 2 ^ 8 % 256, L % 256] ++ rest) from by simp]
      rw [processBytes_cons _ _ _ (by simp)]
      have hstep : stepByte
          ⟨.PAYLOAD_LENGTH, pl0, rem0, mask, mi, mo, mk, fin0, op, msg, ctl, cur⟩ 254 =
          (⟨.PAYLOAD_LENGTH_EXT, 0, 2, mask, mi, mo, true, fin0, op, msg, ctl, cur⟩, []) := by
        simp [stepByte, settlePayloadLengthExt]
      rw [hstep]
      have hval : beInt 0 [L / 2 ^ 8 % 256, L % 256] = (L : Int) := by
        simp only [beInt]
        push_cast
        omega
      rw [processBytes_lenext_run [L / 2 ^ 8 % 256, L % 256] (by simp) 2 rfl 0 mask mi mo
        fin0 op msg ctl cur rest
        (by rw [hval]; omega)
        (by rw [hval]; exact hlim)]
      rw [hval]
      simp
    · rw [show encodeLen L = [255, L / 2 ^ 56 % 256, L / 2 ^ 48 % 256, L / 2 ^ 40 % 256,
          L / 2 ^ 32 % 256, L / 2 ^ 24 % 256, L / 2 ^ 16 % 256, L / 2 ^ 8 % 256, L % 256]
        from by simp [encodeLen, h1, h2]]
      rw [show ([255, L / 2 ^ 56 % 256, L / 2 ^ 48 % 256, L / 2 ^ 40 % 256,
          L / 2 ^ 32 % 256, L / 2 ^ 24 % 256, L / 2 ^ 16 % 256, L / 2 ^ 8 % 256, L % 256] :
          List Nat) ++ rest =
        255 :: ([L / 2 ^ 56 % 256, L / 2 ^ 48 % 256, L / 2 ^ 40 % 256, L / 2 ^ 32 % 256,
          L / 2 ^ 24 % 256, L / 2 ^ 16 % 256, L / 2 ^ 8 % 256, L % 256] ++ rest) from by simp]
      rw [processBytes_cons _ _ _ (by simp)]
      have hstep : stepByte
          ⟨.PAYLOAD_LENGTH, pl0, rem0, mask, mi, mo, mk, fin0, op, msg, ctl, cur⟩ 255 =
          (⟨.PAYLOAD_LENGTH_EXT, 0, 8, mask, mi, mo, true, fin0, op, msg, ctl, cur⟩, []) := by
        simp [stepByte, settlePayloadLengthExt]
      rw [hstep]
      have hval : beInt 0 [L / 2 ^ 56 % 256, L / 2 ^ 48 % 256, L / 2 ^ 40 % 256,
          L / 2 ^ 32 % 256, L / 2 ^ 24 % 256, L / 2 ^ 16 % 256, L / 2 ^ 8 % 256, L % 256] =
          (L : Int) := by
        simp only [beInt]
        push_cast
        omega
      rw [processBytes_lenext_run [L / 2 ^ 56 % 256, L / 2 ^ 48 % 256, L / 2 ^ 40 % 256,
          L / 2 ^ 32 % 256, L / 2 ^ 24 % 256, L / 2 ^ 16 % 256, L / 2 ^ 8 % 256, L % 256]
        (by simp) 8 rfl 0 mask mi mo fin0 op msg ctl cur rest
        (by rw [hval]; omega)
        (by rw [hval]; exact hlim)]
      rw [hval]
      simp

theorem processBytes_mask_run (k0 k1 k2 k3 : Nat) (pl : Int)
    (m0 m1 m2 m3 mo : Nat) (mk fin0 : Bool) (op : Nat)
    (msg ctl : WebSocketFrameData) (cur : Bool) (rest : List Nat) :
    processBytes ⟨.MASK, pl, 0, [m0, m1, m2, m3], 0, mo, mk, fin0, op, msg, ctl, cur⟩
        (k0 :: k1 :: k2 :: k3 :: rest) =
      ((processBytes (settleApplicationData ⟨.MASK, pl, 0, [k0, k1, k2, k3], 0, 0,
          (if [k0, k1, k2, k3] = [0, 0, 0, 0] then false else mk), fin0, op, msg, ctl, cur⟩).1
          rest).1,
       (settleApplicationData ⟨.MASK, pl, 0, [k0, k1, k2, k3], 0, 0,
          (if [k0, k1, k2, k3] = [0, 0, 0, 0] then false else mk), fin0, op, msg, ctl, cur⟩).2 ++
        (processBytes (settleApplicationData ⟨.MASK, pl, 0, [k0, k1, k2, k3], 0, 0,
          (if [k0, k1, k2, k3] = [0, 0, 0, 0] then false else mk), fin0, op, msg, ctl, cur⟩).1
          rest).2) := by
  rw [processBytes_cons _ _ _ (by simp)]
  rw [show stepByte ⟨.MASK, pl, 0, [m0, m1, m2, m3], 0, mo, mk, fin0, op, msg, ctl, cur⟩ k0 =
    (⟨.MASK, pl, 0, [k0, m1, m2, m3], 1, mo, mk, fin0, op, msg, ctl, cur⟩, []) from by
      simp [stepByte]]
  rw [processBytes_cons _ _ _ (by simp)]
  rw [show stepByte ⟨.MASK, pl, 0, [k0, m1, m2, m3], 1, mo, mk, fin0, op, msg, ctl, cur⟩ k1 =
    (⟨.MASK, pl, 0, [k0, k1, m2, m3], 2, mo, mk, fin0, op, msg, ctl, cur⟩, []) from by
      simp [stepByte]]
  rw [processBytes_cons _ _ _ (by simp)]
  rw [show stepByte ⟨.MASK, pl, 0, [k0, k1, m2, m3], 2, mo, mk, fin0, op, msg, ctl, cur⟩ k2 =
    (⟨.MASK, pl, 0, [k0, k1, k2, m3], 3, mo, mk, fin0, op, msg, ctl, cur⟩, []) from by
      simp [stepByte]]
  rw [processBytes_cons _ _ _ (by simp)]
  rw [show stepByte ⟨.MASK, pl, 0, [k0, k1, k2, m3], 3, mo, mk, fin0, op, msg, ctl, cur⟩ k3 =
    settleApplicationData ⟨.MASK, pl, 0, [k0, k1, k2, k3], 0, 0,
      (if [k0, k1, k2, k3] = [0, 0, 0, 0] then false else mk), fin0, op, msg, ctl, cur⟩ from by
      simp [stepByte]]
  simp

theorem processBytes_app_run (cs' : List Nat) : ∀ (c : Nat)
    (rem : Nat) (mask : List Nat) (mi mo : Nat) (mk fin0 : Bool) (op : Nat)
    (msg ctl : WebSocketFrameData) (cur : Bool) (rest : List Nat),
    processBytes
        ⟨.APPLICATION_DATA, ((c :: cs').length : Int), rem, mask, mi, mo, mk, fin0, op, msg, ctl, cur⟩
        ((c :: cs') ++ rest) =
      ((processBytes (dispatchFrame
          ⟨.APPLICATION_DATA, 0, rem, mask, mi, (if mk then mo + (c :: cs').length else mo),
           mk, fin0, op,
           (withAppended msg ctl cur (unmaskSeq mk mask mo (c :: cs'))).1,
           (withAppended msg ctl cur (unmaskSeq mk mask mo (c :: cs'))).2, cur⟩).1 rest).1,
       (dispatchFrame
          ⟨.APPLICATION_DATA, 0, rem, mask, mi, (if mk then mo + (c :: cs').length else mo),
           mk, fin0, op,
           (withAppended msg ctl cur (unmaskSeq mk mask mo (c :: cs'))).1,
           (withAppended msg ctl cur (unmaskSeq mk mask mo (c :: cs'))).2, cur⟩).2 ++
        (processBytes (dispatchFrame
          ⟨.APPLICATION_DATA, 0, rem, mask, mi, (if mk then mo + (c :: cs').length else mo),
           mk, fin0, op,
           (withAppended msg ctl cur (unmaskSeq mk mask mo (c :: cs'))).1,
           (withAppended msg ctl cur (unmaskSeq mk mask mo (c :: cs'))).2, cur⟩).1 rest).2) := by
  induction cs' with
  | nil =>
    intro c rem mask mi mo mk fin0 op msg ctl cur rest
    cases cur <;> cases mk <;>
      simp [processBytes, stepByte, setCurFrame, curFrame, withAppended, unmaskSeq]
  | cons c' cs'' ih =>
    intro c rem mask mi mo mk fin0 op msg ctl cur rest
    have hc1 : (((c :: c' :: cs'').length : Nat) : Int) - 1 = (((c' :: cs'').length : Nat) : Int) := by
      simp only [List.length_cons]
      push_cast
      omega
    have hstep : stepByte
        ⟨.APPLICATION_DATA, ((c :: c' :: cs'').length : Int), rem, mask, mi, mo, mk, fin0, op,
          msg, ctl, cur⟩ c =
        (⟨.APPLICATION_DATA, (((c' :: cs'').length : Nat) : Int), rem, mask, mi,
          (if mk then mo + 1 else mo), mk, fin0, op,
          (withAppended msg ctl cur [if mk then c ^^^ mask.getD (mo % 4) 0 else c]).1,
          (withAppended msg ctl cur [if mk then c ^^^ mask.getD (mo % 4) 0 else c]).2, cur⟩, []) := by
      cases cur <;> cases mk <;>
        (simp [stepByte, curFrame, setCurFrame, withAppended, hc1] <;>
          (intro h; exact absurd h (by omega)))
    rw [List.cons_append, processBytes_cons _ _ _ (by simp), hstep]
    rw [ih]
    rw [withAppended_append]
    cases mk
    · simp [unmaskSeq, unmaskSeq_not_masking]
    · simp only [if_true]
      have hmo : mo + 1 + (cs''.length + 1) = mo + (cs''.length + 1 + 1) := by omega
      simp [unmaskSeq, hmo]

theorem processBytes_frame_body (key payload : List Nat) (hk : key.length = 4)
    (hlim : (payload.length : Int) ≤ payloadLimit) (pl0 : Int) (rem0 : Nat)
    (mask0 : List Nat) (hm0 : mask0.length = 4) (mo : Nat) (mk fin0 : Bool) (op : Nat)
    (msg ctl : WebSocketFrameData) (cur : Bool) (rest : List Nat) :
    processBytes ⟨.PAYLOAD_LENGTH, pl0, rem0, mask0, 0, mo, mk, fin0, op, msg, ctl, cur⟩
        (encodeLen payload.length ++ (key ++ (maskBytes key 0 payload ++ rest))) =
      ((processBytes (dispatchFrame (bodyExit key payload fin0 op msg ctl cur)).1 rest).1,
       (dispatchFrame (bodyExit key payload fin0 op msg ctl cur)).2 ++
        (processBytes (dispatchFrame (bodyExit key payload fin0 op msg ctl cur)).1 rest).2) := by
  rcases mask0 with _ | ⟨m0, _ | ⟨m1, _ | ⟨m2, _ | ⟨m3, _ | ⟨m4, mt⟩⟩⟩⟩⟩ <;> simp at hm0
  rcases key with _ | ⟨k0, _ | ⟨k1, _ | ⟨k2, _ | ⟨k3, _ | ⟨k4, kt⟩⟩⟩⟩⟩ <;> simp at hk
  rw [processBytes_len_run payload.length hlim]
  rw [show ([k0, k1, k2, k3] : List Nat) ++ (maskBytes [k0, k1, k2, k3] 0 payload ++ rest) =
    k0 :: k1 :: k2 :: k3 :: (maskBytes [k0, k1, k2, k3] 0 payload ++ rest) from by simp]
  rw [processBytes_mask_run]
  cases payload with
  | nil =>
    simp [settleApplicationData, bodyExit, withAppended_nil, maskBytes]
  | cons c cs =>
    have hne : ¬(((c :: cs).length : Nat) : Int) = 0 := by
      simp
      omega
    have hsettle : settleApplicationData
        ⟨.MASK, (((c :: cs).length : Nat) : Int), 0, [k0, k1, k2, k3], 0, 0,
          (if ([k0, k1, k2, k3] : List Nat) = [0, 0, 0, 0] then false else true), fin0, op,
          msg, ctl, cur⟩ =
        (⟨.APPLICATION_DATA, (((c :: cs).length : Nat) : Int), 0, [k0, k1, k2, k3], 0, 0,
          (if ([k0, k1, k2, k3] : List Nat) = [0, 0, 0, 0] then false else true), fin0, op,
          msg, ctl, cur⟩, []) := by
      simp [settleApplicationData]
      intro h
      exact absurd h (by omega)
    rw [hsettle]
    have hmb : maskBytes [k0, k1, k2, k3] 0 (c :: cs) =
        (c ^^^ ([k0, k1, k2, k3] : List Nat).getD 0 0) :: maskBytes [k0, k1, k2, k3] 1 cs := by
      simp [maskBytes]
    have hlen : (((c :: cs).length : Nat) : Int) =
        ((((c ^^^ ([k0, k1, k2, k3] : List Nat).getD 0 0) ::
            maskBytes [k0, k1, k2, k3] 1 cs).length : Nat) : Int) := by
      simp [maskBytes_length]
    rw [hmb, hlen, List.cons_append]
    rw [show ((c ^^^ ([k0, k1, k2, k3] : List Nat).getD 0 0) ::
        (maskBytes [k0, k1, k2, k3] 1 cs ++ rest)) =
      (((c ^^^ ([k0, k1, k2, k3] : List Nat).getD 0 0) :: maskBytes [k0, k1, k2, k3] 1 cs) ++
        rest) from by simp]
    rw [processBytes_app_run]
    by_cases hz : ([k0, k1, k2, k3] : List Nat) = [0, 0, 0, 0]
    · have h00 : (k0 = 0 ∧ k1 = 0 ∧ k2 = 0 ∧ k3 = 0) := by simpa using hz
      obtain ⟨rfl, rfl, rfl, rfl⟩ := h00
      have hcopy : maskBytes [0, 0, 0, 0] 1 cs = cs := maskBytes_zero_key cs 1
      simp [bodyExit, unmaskSeq_not_masking, hcopy, getD_zeros, maskBytes_length,
        List.getD]
    · have hrt : unmaskSeq true [k0, k1, k2, k3] 0
          ((c ^^^ k0) :: maskBytes [k0, k1, k2, k3] 1 cs) = c :: cs := by
        have := unmaskSeq_maskBytes [k0, k1, k2, k3] (c :: cs) 0
        simpa [maskBytes, List.getD] using this
      simp [bodyExit, hz, hrt, maskBytes_length]

theorem stepByte_start_data_nofin (op : Nat) (hop : op = 1 ∨ op = 2)
    (pl0 : Int) (rem0 : Nat) (mask0 : List Nat) (mo : Nat) (mk fin0 : Bool) (op0 : Nat)
    (mdata : List Nat) (mop : Nat) (ctl : WebSocketFrameData) (cur : Bool) :
    stepByte ⟨.START, pl0, rem0, mask0, 0, mo, mk, fin0, op0, ⟨mdata, true, mop⟩, ctl, cur⟩
        (op % 16) =
      (⟨.PAYLOAD_LENGTH, 0, 0, mask0, 0, mo, mk, false, op, ⟨mdata, false, op⟩, ctl, false⟩,
       []) := by
  rcases hop with rfl | rfl <;> simp [stepByte]

theorem stepByte_start_data_fin (op : Nat) (hop : op = 1 ∨ op = 2)
    (pl0 : Int) (rem0 : Nat) (mask0 : List Nat) (mo : Nat) (mk fin0 : Bool) (op0 : Nat)
    (mdata : List Nat) (mop : Nat) (ctl : WebSocketFrameData) (cur : Bool) :
    stepByte ⟨.START, pl0, rem0, mask0, 0, mo, mk, fin0, op0, ⟨mdata, true, mop⟩, ctl, cur⟩
        (128 + op % 16) =
      (⟨.PAYLOAD_LENGTH, 0, 0, mask0, 0, mo, mk, true, op, ⟨mdata, true, op⟩, ctl, false⟩,
       []) := by
  rcases hop with rfl | rfl <;> simp [stepByte]

theorem stepByte_start_cont_nofin (mop : Nat) (hmop : mop = 1 ∨ mop = 2)
    (pl0 : Int) (rem0 : Nat) (mask0 : List Nat) (mo : Nat) (mk fin0 : Bool) (op0 : Nat)
    (mdata : List Nat) (ctl : WebSocketFrameData) (cur : Bool) :
    stepByte ⟨.START, pl0, rem0, mask0, 0, mo, mk, fin0, op0, ⟨mdata, false, mop⟩, ctl, cur⟩ 0 =
      (⟨.PAYLOAD_LENGTH, 0, 0, mask0, 0, mo, mk, false, mop, ⟨mdata, false, mop⟩, ctl, false⟩,
       []) := by
  rcases hmop with rfl | rfl <;> simp [stepByte]

theorem stepByte_start_cont_fin (mop : Nat) (hmop : mop = 1 ∨ mop = 2)
    (pl0 : Int) (rem0 : Nat) (mask0 : List Nat) (mo : Nat) (mk fin0 : Bool) (op0 : Nat)
    (mdata : List Nat) (ctl : WebSocketFrameData) (cur : Bool) :
    stepByte ⟨.START, pl0, rem0, mask0, 0, mo, mk, fin0, op0, ⟨mdata, false, mop⟩, ctl, cur⟩ 128 =
      (⟨.PAYLOAD_LENGTH, 0, 0, mask0, 0, mo, mk, true, mop, ⟨mdata, true, mop⟩, ctl, false⟩,
       []) := by
  rcases hmop with rfl | rfl <;> simp [stepByte]

theorem dispatchFrame_data_exit (op : Nat) (hop : op = 1 ∨ op = 2) (fin1 : Bool)
    (key payload mdata : List Nat) (ctl : WebSocketFrameData) :
    dispatchFrame (bodyExit key payload fin1 op ⟨mdata, fin1, op⟩ ctl false) =
      (⟨.START, 0, 0, key, 0, (if key = [0, 0, 0, 0] then 0 else payload.length),
        (if key = [0, 0, 0, 0] then false else true), fin1, op,
        ⟨(if fin1 then [] else mdata ++ payload), fin1, op⟩, ctl, false⟩,
       if fin1 then [.message (if op = 1 then .text else .binary) (mdata ++ payload)]
       else []) := by
  rcases hop with rfl | rfl <;> cases fin1 <;>
    simp [dispatchFrame, bodyExit, withAppended, curFrame, setCurFrame]

theorem dispatchFrame_ping_exit (key payload : List Nat) (msg : WebSocketFrameData)
    (cfin : Bool) :
    dispatchFrame (bodyExit key payload true 9 msg ⟨[], cfin, 9⟩ true) =
      (⟨.START, 0, 0, key, 0, (if key = [0, 0, 0, 0] then 0 else payload.length),
        (if key = [0, 0, 0, 0] then false else true), true, 9,
        msg, ⟨[], cfin, 9⟩, true⟩,
       [.send .pong payload]) := by
  simp [dispatchFrame, bodyExit, withAppended, curFrame, setCurFrame]

theorem processBytes_first_frame_nofin (op : Nat) (hop : op = 1 ∨ op = 2)
    (key payload : List Nat) (hk : key.length = 4)
    (hlim : (payload.length : Int) ≤ payloadLimit) (pl0 : Int) (rem0 : Nat)
    (mask0 : List Nat) (hm0 : mask0.length = 4) (mo : Nat) (mk fin0 : Bool) (op0 : Nat)
    (mdata : List Nat) (mop : Nat) (ctl : WebSocketFrameData) (cur : Bool) (rest : List Nat) :
    processBytes ⟨.START, pl0, rem0, mask0, 0, mo, mk, fin0, op0, ⟨mdata, true, mop⟩, ctl, cur⟩
        (encodeFrame ⟨false, op, key, payload⟩ ++ rest) =
      processBytes ⟨.START, 0, 0, key, 0,
        (if key = [0, 0, 0, 0] then 0 else payload.length),
        (if key = [0, 0, 0, 0] then false else true), false, op,
        ⟨mdata ++ payload, false, op⟩, ctl, false⟩ rest := by
  simp only [encodeFrame, List.cons_append, List.append_assoc, Bool.false_eq_true,
    if_false, Nat.zero_add]
  rw [processBytes_cons _ _ _ (by simp)]
  rw [stepByte_start_data_nofin op hop]
  rw [processBytes_frame_body key payload hk hlim _ _ mask0 hm0]
  rw [dispatchFrame_data_exit op hop false]
  simp

theorem processBytes_first_frame_fin (op : Nat) (hop : op = 1 ∨ op = 2)
    (key payload : List Nat) (hk : key.length = 4)
    (hlim : (payload.length : Int) ≤ payloadLimit) (pl0 : Int) (rem0 : Nat)
    (mask0 : List Nat) (hm0 : mask0.length = 4) (mo : Nat) (mk fin0 : Bool) (op0 : Nat)
    (mdata : List Nat) (mop : Nat) (ctl : WebSocketFrameData) (cur : Bool) (rest : List Nat) :
    processBytes ⟨.START, pl0, rem0, mask0, 0, mo, mk, fin0, op0, ⟨mdata, true, mop⟩, ctl, cur⟩
        (encodeFrame ⟨true, op, key, payload⟩ ++ rest) =
      ((processBytes ⟨.START, 0, 0, key, 0,
          (if key = [0, 0, 0, 0] then 0 else payload.length),
          (if key = [0, 0, 0, 0] then false else true), true, op,
          ⟨[], true, op⟩, ctl, false⟩ rest).1,
       .message (if op = 1 then .text else .binary) (mdata ++ payload) ::
        (processBytes ⟨.START, 0, 0, key, 0,
          (if key = [0, 0, 0, 0] then 0 else payload.length),
          (if key = [0, 0, 0, 0] then false else true), true, op,
          ⟨[], true, op⟩, ctl, false⟩ rest).2) := by
  simp only [encodeFrame, List.cons_append, List.append_assoc, if_true]
  rw [processBytes_cons _ _ _ (by simp)]
  rw [stepByte_start_data_fin op hop]
  rw [processBytes_frame_body key payload hk hlim _ _ mask0 hm0]
  rw [dispatchFrame_data_exit op hop true]
  simp

theorem processBytes_cont_frame_nofin (mop : Nat) (hmop : mop = 1 ∨ mop = 2)
    (key payload : List Nat) (hk : key.length = 4)
    (hlim : (payload.length : Int) ≤ payloadLimit) (pl0 : Int) (rem0 : Nat)
    (mask0 : List Nat) (hm0 : mask0.length = 4) (mo : Nat) (mk fin0 : Bool) (op0 : Nat)
    (mdata : List Nat) (ctl : WebSocketFrameData) (cur : Bool) (rest : List Nat) :
    processBytes ⟨.START, pl0, rem0, mask0, 0, mo, mk, fin0, op0, ⟨mdata, false, mop⟩, ctl, cur⟩
        (encodeFrame ⟨false, 0, key, payload⟩ ++ rest) =
      processBytes ⟨.START, 0, 0, key, 0,
        (if key = [0, 0, 0, 0] then 0 else payload.length),
        (if key = [0, 0, 0, 0] then false else true), false, mop,
        ⟨mdata ++ payload, false, mop⟩, ctl, false⟩ rest := by
  simp only [encodeFrame, List.cons_append, List.append_assoc, Bool.false_eq_true,
    if_false, Nat.zero_add, Nat.zero_mod]
  rw [processBytes_cons _ _ _ (by simp)]
  rw [stepByte_start_cont_nofin mop hmop]
  rw [processBytes_frame_body key payload hk hlim _ _ mask0 hm0]
  rw [dispatchFrame_data_exit mop hmop false]
  simp

theorem processBytes_cont_frame_fin (mop : Nat) (hmop : mop = 1 ∨ mop = 2)
    (key payload : List Nat) (hk : key.length = 4)
    (hlim : (payload.length : Int) ≤ payloadLimit) (pl0 : Int) (rem0 : Nat)
    (mask0 : List Nat) (hm0 : mask0.length = 4) (mo : Nat) (mk fin0 : Bool) (op0 : Nat)
    (mdata : List Nat) (ctl : WebSocketFrameData) (cur : Bool) (rest : List Nat) :
    processBytes ⟨.START, pl0, rem0, mask0, 0, mo, mk, fin0, op0, ⟨mdata, false, mop⟩, ctl, cur⟩
        (encodeFrame ⟨true, 0, key, payload⟩ ++ rest) =
      ((processBytes ⟨.START, 0, 0, key, 0,
          (if key = [0, 0, 0, 0] then 0 else payload.length),
          (if key = [0, 0, 0, 0] then false else true), true, mop,
          ⟨[], true, mop⟩, ctl, false⟩ rest).1,
       .message (if mop = 1 then .text else .binary) (mdata ++ payload) ::
        (processBytes ⟨.START, 0, 0, key, 0,
          (if key = [0, 0, 0, 0] then 0 else payload.length),
          (if key = [0, 0, 0, 0] then false else true), true, mop,
          ⟨[], true, mop⟩, ctl, false⟩ rest).2) := by
  simp only [encodeFrame, List.cons_append, List.append_assoc, if_true, Nat.zero_mod,
    Nat.add_zero]
  rw [processBytes_cons _ _ _ (by simp)]
  rw [stepByte_start_cont_fin mop hmop]
  rw [processBytes_frame_body key payload hk hlim _ _ mask0 hm0]
  rw [dispatchFrame_data_exit mop hmop true]
  simp

theorem processBytes_ping_frame (key payload : List Nat) (hk : key.length = 4)
    (hlim : (payload.length : Int) ≤ payloadLimit) (pl0 : Int) (rem0 : Nat)
    (mask0 : List Nat) (hm0 : mask0.length = 4) (mo : Nat) (mk fin0 : Bool) (op0 : Nat)
    (msg : WebSocketFrameData) (cfin : Bool) (cop : Nat) (cur : Bool) (rest : List Nat) :
    processBytes ⟨.START, pl0, rem0, mask0, 0, mo, mk, fin0, op0, msg, ⟨[], cfin, cop⟩, cur⟩
        (encodeFrame ⟨true, 9, key, payload⟩ ++ rest) =
      ((processBytes ⟨.START, 0, 0, key, 0,
          (if key = [0, 0, 0, 0] then 0 else payload.length),
          (if key = [0, 0, 0, 0] then false else true), true, 9,
          msg, ⟨[], cfin, 9⟩, true⟩ rest).1,
       .send .pong payload ::
        (processBytes ⟨.START, 0, 0, key, 0,
          (if key = [0, 0, 0, 0] then 0 else payload.length),
          (if key = [0, 0, 0, 0] then false else true), true, 9,
          msg, ⟨[], cfin, 9⟩, true⟩ rest).2) := by
  simp only [encodeFrame, List.cons_append, List.append_assoc]
  norm_num
  rw [processBytes_cons _ _ _ (by simp)]
  rw [show stepByte
      ⟨.START, pl0, rem0, mask0, 0, mo, mk, fin0, op0, msg, ⟨[], cfin, cop⟩, cur⟩ 137 =
      (⟨.PAYLOAD_LENGTH, 0, 0, mask0, 0, mo, mk, true, 9, msg, ⟨[], cfin, 9⟩, true⟩, [])
    from by simp [stepByte]]
  rw [processBytes_frame_body key payload hk hlim _ _ mask0 hm0]
  rw [dispatchFrame_ping_exit]
  simp

theorem payload_le_limit {n : Nat} (h : n ≤ 33554432) : (n : Int) ≤ payloadLimit := by
  show (n : Int) ≤ (33554432 : Int)
  exact_mod_cast h

theorem processBytes_mids_last (mids : List WireFrame) : ∀ (flast : WireFrame) (mop : Nat),
    mop = 1 ∨ mop = 2 →
    (∀ f ∈ mids, f.opcode = 0 ∧ f.fin = false ∧ f.key.length = 4 ∧
      f.payload.length ≤ 33554432) →
    flast.opcode = 0 → flast.fin = true → flast.key.length = 4 →
    flast.payload.length ≤ 33554432 →
    ∀ (mdata : List Nat) (pl0 : Int) (rem0 : Nat) (mask0 : List Nat), mask0.length = 4 →
    ∀ (mo : Nat) (mk fin0 : Bool) (op0 : Nat) (cfin : Bool) (cop : Nat) (cur : Bool),
    (processBytes ⟨.START, pl0, rem0, mask0, 0, mo, mk, fin0, op0, ⟨mdata, false, mop⟩,
        ⟨[], cfin, cop⟩, cur⟩ (framesBytes (mids ++ [flast]))).2 =
      [.message (if mop = 1 then .text else .binary)
        (mdata ++ ((mids ++ [flast]).map WireFrame.payload).join)] := by
  induction mids with
  | nil =>
    intro flast mop hmop hmids hlop hlfin hlk hllim mdata pl0 rem0 mask0 hm0
      mo mk fin0 op0 cfin cop cur
    rcases flast with ⟨lfin, lop, lkey, lpl⟩
    simp only at hlop hlfin hlk hllim
    subst hlop hlfin
    rw [show framesBytes ([] ++ [⟨true, 0, lkey, lpl⟩]) =
      encodeFrame ⟨true, 0, lkey, lpl⟩ ++ [] from by simp [framesBytes]]
    rw [processBytes_cont_frame_fin mop hmop lkey lpl hlk (payload_le_limit hllim)
      _ _ mask0 hm0]
    simp [processBytes]
  | cons f mids' ih =>
    intro flast mop hmop hmids hlop hlfin hlk hllim mdata pl0 rem0 mask0 hm0
      mo mk fin0 op0 cfin cop cur
    obtain ⟨hfop, hffin, hfk, hflim⟩ := hmids f (by simp)
    rcases f with ⟨ffin, fop, fkey, fpl⟩
    simp only at hfop hffin hfk hflim
    subst hfop hffin
    rw [show framesBytes ((⟨false, 0, fkey, fpl⟩ : WireFrame) :: mids' ++ [flast]) =
      encodeFrame ⟨false, 0, fkey, fpl⟩ ++ framesBytes (mids' ++ [flast]) from by
        simp [framesBytes]]
    rw [processBytes_cont_frame_nofin mop hmop fkey fpl hfk (payload_le_limit hflim)
      _ _ mask0 hm0]
    rw [ih flast mop hmop (fun g hg => hmids g (by simp [hg])) hlop hlfin hlk hllim
      (mdata ++ fpl) _ _ fkey hfk]
    simp

theorem processBytes_prefix_run (mids : List WireFrame) : ∀ (mop : Nat),
    mop = 1 ∨ mop = 2 →
    (∀ f ∈ mids, f.opcode = 0 ∧ f.fin = false ∧ f.key.length = 4 ∧
      f.payload.length ≤ 33554432) →
    ∀ (mdata : List Nat) (pl0 : Int) (rem0 : Nat) (mask0 : List Nat), mask0.length = 4 →
    ∀ (mo : Nat) (mk fin0 : Bool) (op0 : Nat) (cfin : Bool) (cop : Nat) (cur : Bool)
      (rest : List Nat),
    ∃ (pl1 : Int) (rem1 : Nat) (mask1 : List Nat) (mo1 : Nat) (mk1 fin1 : Bool) (op1 : Nat)
      (cur1 : Bool),
      mask1.length = 4 ∧
      processBytes ⟨.START, pl0, rem0, mask0, 0, mo, mk, fin0, op0, ⟨mdata, false, mop⟩,
          ⟨[], cfin, cop⟩, cur⟩ (framesBytes mids ++ rest) =
        processBytes ⟨.START, pl1, rem1, mask1, 0, mo1, mk1, fin1, op1,
          ⟨mdata ++ (mids.map WireFrame.payload).join, false, mop⟩,
          ⟨[], cfin, cop⟩, cur1⟩ rest := by
  induction mids with
  | nil =>
    intro mop hmop hmids mdata pl0 rem0 mask0 hm0 mo mk fin0 op0 cfin cop cur rest
    exact ⟨pl0, rem0, mask0, mo, mk, fin0, op0, cur, hm0, by simp [framesBytes]⟩
  | cons f mids' ih =>
    intro mop hmop hmids mdata pl0 rem0 mask0 hm0 mo mk fin0 op0 cfin cop cur rest
    obtain ⟨hfop, hffin, hfk, hflim⟩ := hmids f (by simp)
    rcases f with ⟨ffin, fop, fkey, fpl⟩
    simp only at hfop hffin hfk hflim
    subst hfop hffin
    obtain ⟨pl1, rem1, mask1, mo1, mk1, fin1, op1, cur1, hm1, heq⟩ :=
      ih mop hmop (fun g hg => hmids g (by simp [hg])) (mdata ++ fpl) 0 0 fkey hfk
        (if fkey = [0, 0, 0, 0] then 0 else fpl.length)
        (if fkey = [0, 0, 0, 0] then false else true) false mop cfin cop false rest
    refine ⟨pl1, rem1, mask1, mo1, mk1, fin1, op1, cur1, hm1, ?_⟩
    rw [show framesBytes ((⟨false, 0, fkey, fpl⟩ : WireFrame) :: mids') ++ rest =
      encodeFrame ⟨false, 0, fkey, fpl⟩ ++ (framesBytes mids' ++ rest) from by
        simp [framesBytes]]
    rw [processBytes_cont_frame_nofin mop hmop fkey fpl hfk (payload_le_limit hflim)
      _ _ mask0 hm0]
    rw [heq]
    simp

/-! ### Claim C1 (handshake required items) — corrected -/

/-- Claim C1 as stated is false on the code: the request with every claimed
required item present but no `Sec-WebSocket-Origin` header satisfies the
claim's acceptance condition, yet `mod_websocket_method_handler` declines it
(the code also requires `Sec-WebSocket-Origin != NULL`, lines 644-648). -/
theorem websocket_handshake_origin_counterexample :
    claimC1Accepts requestWithoutOrigin = true ∧
    methodHandlerAccepts requestWithoutOrigin true = false := by decide

/-- C1 (amended): with the handler name, path and plugin configuration in
place, `mod_websocket_method_handler` proceeds exactly when: the method is
GET, `Upgrade` equals `websocket` case-insensitively, `Connection` equals
`Upgrade` case-insensitively as a whole value, `Host`, `Sec-WebSocket-Key`
and `Sec-WebSocket-Origin` are present, and `Sec-WebSocket-Version` equals
`7` case-insensitively; only `Sec-WebSocket-Protocol` and plain `Origin`
are optional. -/
theorem websocket_handshake_required_items (r : UpgradeRequest) (p : Bool)
    (hname : r.handlerName = "websocket-handler") (hpath : r.hasPath = true)
    (hplugin : p = true) :
    methodHandlerAccepts r p = true ↔
      (r.methodIsGet = true ∧
       (∃ u, r.upgrade = some u ∧ strcaseEq u "websocket" = true) ∧
       (∃ c, r.connection = some c ∧ strcaseEq c "Upgrade" = true) ∧
       r.host.isSome = true ∧
       r.secWebSocketKey.isSome = true ∧
       r.secWebSocketOrigin.isSome = true ∧
       (∃ v, r.secWebSocketVersion = some v ∧ strcaseEq v "7" = true)) := by
  subst hplugin
  obtain ⟨hn, mg, hp, up, co, ho, k, og, ve⟩ := r
  simp only at hname hpath
  subst hname hpath
  cases up <;> cases co <;> cases ho <;> cases k <;> cases og <;> cases ve <;>
    simp [methodHandlerAccepts, strcaseEq_websocket, and_assoc]

theorem websocket_handshake_required_items_witness :
    requestAllHeaders.handlerName = "websocket-handler" ∧
    requestAllHeaders.hasPath = true ∧
    methodHandlerAccepts requestAllHeaders true = true :=
  ⟨rfl, rfl, (websocket_handshake_required_items requestAllHeaders true rfl rfl rfl).mpr
    ⟨rfl, ⟨"websocket", rfl, by decide⟩, ⟨"Upgrade", rfl, by decide⟩, rfl, rfl, rfl,
     ⟨"7", rfl, by decide⟩⟩⟩

/-! ### Claim C2 (fragmentation reassembly and masking) — confirmed -/

/-- C2: for any split of a message into masked frames F1..Fn — F1 a TEXT or
BINARY frame, the rest CONTINUATION, FIN clear on all but the last, FIN set
on the last, each frame masked with an arbitrary 4-byte key and its payload
within the 32 MiB limit — the read/dispatch loop delivers exactly one
`on_message` with F1's type and the concatenation of the frames' unmasked
payloads, where each frame's payload byte i is its wire byte xored with that
frame's key byte `K[i mod 4]` (the index restarting at every frame). -/
theorem websocket_fragmentation_reassembly (op : Nat) (f1 : WireFrame) (fs : List WireFrame)
    (hop : op = 1 ∨ op = 2) (hf1 : f1.opcode = op)
    (hfs : ∀ f ∈ fs, f.opcode = 0)
    (hkl : ∀ f ∈ f1 :: fs, f.key.length = 4 ∧ f.payload.length ≤ 33554432)
    (hfins : ∀ f ∈ (f1 :: fs).dropLast, f.fin = false)
    (hlast : ((f1 :: fs).getLast (by simp)).fin = true) :
    (processBytes initialFramingState (framesBytes (f1 :: fs))).2 =
      [.message (if op = 1 then .text else .binary)
        (((f1 :: fs).map WireFrame.payload).join)] := by
  obtain ⟨hk1, hlim1⟩ := hkl f1 (by simp)
  cases fs with
  | nil =>
    rcases f1 with ⟨ffin, fop, fkey, fpl⟩
    simp only at hf1 hk1 hlim1
    have hffin : ffin = true := by simpa [List.getLast] using hlast
    have hf1s := hf1.symm
    subst hf1s hffin
    rw [show framesBytes [(⟨true, op, fkey, fpl⟩ : WireFrame)] =
      encodeFrame ⟨true, op, fkey, fpl⟩ ++ [] from by simp [framesBytes]]
    rw [show initialFramingState =
      (⟨.START, 0, 0, [0, 0, 0, 0], 0, 0, false, false, 255, ⟨[], true, 0⟩, ⟨[], true, 8⟩,
        true⟩ : DataFramingState) from rfl]
    rw [processBytes_first_frame_fin op hop fkey fpl hk1 (payload_le_limit hlim1)
      _ _ _ (by simp)]
    simp [processBytes]
  | cons f2 fs' =>
    have hf1fin : f1.fin = false := hfins f1 (by simp)
    rcases f1 with ⟨ffin, fop, fkey, fpl⟩
    simp only at hf1 hf1fin hk1 hlim1
    have hf1s := hf1.symm
    subst hf1s hf1fin
    rw [show framesBytes ((⟨false, op, fkey, fpl⟩ : WireFrame) :: f2 :: fs') =
      encodeFrame ⟨false, op, fkey, fpl⟩ ++ framesBytes (f2 :: fs') from by simp [framesBytes]]
    rw [show initialFramingState =
      (⟨.START, 0, 0, [0, 0, 0, 0], 0, 0, false, false, 255, ⟨[], true, 0⟩, ⟨[], true, 8⟩,
        true⟩ : DataFramingState) from rfl]
    rw [processBytes_first_frame_nofin op hop fkey fpl hk1 (payload_le_limit hlim1)
      _ _ _ (by simp)]
    have hne2 : (f2 :: fs') ≠ [] := by simp
    have hsplit : (f2 :: fs').dropLast ++ [(f2 :: fs').getLast hne2] = f2 :: fs' :=
      List.dropLast_concat_getLast hne2
    rw [show framesBytes (f2 :: fs') =
      framesBytes ((f2 :: fs').dropLast ++ [(f2 :: fs').getLast hne2]) from by rw [hsplit]]
    rw [processBytes_mids_last ((f2 :: fs').dropLast) ((f2 :: fs').getLast hne2) op hop
      (fun g hg => by
        have hmem : g ∈ f2 :: fs' := List.mem_of_mem_dropLast hg
        refine ⟨hfs g hmem, ?_, (hkl g (by simp [hmem])).1, (hkl g (by simp [hmem])).2⟩
        exact hfins g (by simpa using Or.inr hg))
      (hfs _ (List.getLast_mem hne2))
      (by
        have := List.getLast_cons (a := (⟨false, op, fkey, fpl⟩ : WireFrame)) hne2
        rw [← this]
        exact hlast)
      (hkl _ (by simp [List.getLast_mem hne2])).1
      (hkl _ (by simp [List.getLast_mem hne2])).2
      ([] ++ fpl) _ _ fkey hk1]
    rw [hsplit]
    simp

theorem websocket_fragmentation_reassembly_witness :
    ((1 : Nat) = 1 ∨ (1 : Nat) = 2) ∧
    (processBytes initialFramingState
      (framesBytes [⟨false, 1, [1, 2, 3, 4], [104]⟩, ⟨false, 0, [0, 0, 0, 0], [101, 108]⟩,
        ⟨true, 0, [9, 9, 9, 9], [108, 111]⟩])).2 =
      [.message (if 1 = 1 then .text else .binary)
        ((([⟨false, 1, [1, 2, 3, 4], [104]⟩, ⟨false, 0, [0, 0, 0, 0], [101, 108]⟩,
          ⟨true, 0, [9, 9, 9, 9], [108, 111]⟩] : List WireFrame).map WireFrame.payload).join)] :=
  ⟨Or.inl rfl,
   websocket_fragmentation_reassembly 1 ⟨false, 1, [1, 2, 3, 4], [104]⟩
     [⟨false, 0, [0, 0, 0, 0], [101, 108]⟩, ⟨true, 0, [9, 9, 9, 9], [108, 111]⟩]
     (Or.inl rfl) rfl (by decide) (by decide) (by decide) (by decide)⟩

/-! ### Claim C5 (PING interleaved in a fragmented message) — confirmed -/

/-- C5: a PING frame (FIN=1, any 4-byte key, payload ≤ 125 bytes) received
between the frames of an in-progress fragmented message causes exactly one
PONG send carrying the PING's unmasked payload, leaves the partial message
buffer untouched, and the message still arrives in exactly one `on_message`
with the full concatenated payload; the PING itself triggers no
`on_message`. -/
theorem websocket_ping_interleave (op : Nat) (f1 : WireFrame) (pre post : List WireFrame)
    (pk pp : List Nat)
    (hop : op = 1 ∨ op = 2) (hf1op : f1.opcode = op) (hf1fin : f1.fin = false)
    (hf1k : f1.key.length = 4) (hf1lim : f1.payload.length ≤ 33554432)
    (hpre : ∀ f ∈ pre, f.opcode = 0 ∧ f.fin = false ∧ f.key.length = 4 ∧
      f.payload.length ≤ 33554432)
    (hpostne : post ≠ [])
    (hpost : ∀ f ∈ post, f.opcode = 0 ∧ f.key.length = 4 ∧ f.payload.length ≤ 33554432)
    (hpostfin : ∀ f ∈ post.dropLast, f.fin = false)
    (hpostlast : (post.getLast hpostne).fin = true)
    (hpk : pk.length = 4) (hpp : pp.length ≤ 125) :
    (processBytes initialFramingState
      (encodeFrame f1 ++ (framesBytes pre ++ (encodeFrame ⟨true, 9, pk, pp⟩ ++
        framesBytes post)))).2 =
      [.send .pong pp,
       .message (if op = 1 then .text else .binary)
         (f1.payload ++ ((pre.map WireFrame.payload).join ++
           (post.map WireFrame.payload).join))] := by
  rcases f1 with ⟨ffin, fop, fkey, fpl⟩
  simp only at hf1op hf1fin hf1k hf1lim
  have hf1s := hf1op.symm
  subst hf1s hf1fin
  rw [show initialFramingState =
    (⟨.START, 0, 0, [0, 0, 0, 0], 0, 0, false, false, 255, ⟨[], true, 0⟩, ⟨[], true, 8⟩,
      true⟩ : DataFramingState) from rfl]
  rw [processBytes_first_frame_nofin op hop fkey fpl hf1k (payload_le_limit hf1lim)
    _ _ _ (by simp)]
  obtain ⟨pl1, rem1, mask1, mo1, mk1, fin1, op1, cur1, hm1, heq⟩ :=
    processBytes_prefix_run pre op hop hpre ([] ++ fpl) 0 0 fkey hf1k
      (if fkey = [0, 0, 0, 0] then 0 else fpl.length)
      (if fkey = [0, 0, 0, 0] then false else true) false op true 8 false
      (encodeFrame ⟨true, 9, pk, pp⟩ ++ framesBytes post)
  rw [heq]
  rw [processBytes_ping_frame pk pp hpk (payload_le_limit (by omega)) _ _ mask1 hm1]
  have hne2 := hpostne
  have hsplit : post.dropLast ++ [post.getLast hpostne] = post :=
    List.dropLast_concat_getLast hpostne
  rw [show framesBytes post =
    framesBytes (post.dropLast ++ [post.getLast hpostne]) from by rw [hsplit]]
  rw [processBytes_mids_last (post.dropLast) (post.getLast hpostne) op hop
    (fun g hg => by
      have hmem : g ∈ post := List.mem_of_mem_dropLast hg
      exact ⟨(hpost g hmem).1, hpostfin g hg, (hpost g hmem).2.1, (hpost g hmem).2.2⟩)
    (hpost _ (List.getLast_mem hpostne)).1
    hpostlast
    (hpost _ (List.getLast_mem hpostne)).2.1
    (hpost _ (List.getLast_mem hpostne)).2.2
    ([] ++ fpl ++ (pre.map WireFrame.payload).join) _ _ pk hpk]
  rw [hsplit]
  simp [List.append_assoc]

theorem websocket_ping_interleave_witness :
    ((1 : Nat) = 1 ∨ (1 : Nat) = 2) ∧
    (processBytes initialFramingState
      (encodeFrame ⟨false, 1, [1, 2, 3, 4], [104]⟩ ++
        (framesBytes [] ++ (encodeFrame ⟨true, 9, [5, 6, 7, 8], [120]⟩ ++
          framesBytes [⟨true, 0, [0, 0, 0, 0], [105]⟩])))).2 =
      [.send .pong [120],
       .message (if 1 = 1 then .text else .binary)
         (([104] : List Nat) ++ ((([] : List WireFrame).map WireFrame.payload).join ++
           (([⟨true, 0, [0, 0, 0, 0], [105]⟩] : List WireFrame).map WireFrame.payload).join))] :=
  ⟨Or.inl rfl,
   websocket_ping_interleave 1 ⟨false, 1, [1, 2, 3, 4], [104]⟩ []
     [⟨true, 0, [0, 0, 0, 0], [105]⟩] [5, 6, 7, 8] [120]
     (Or.inl rfl) rfl rfl rfl (by decide) (by decide) (by decide) (by decide) (by decide)
     (by decide) rfl (by decide)⟩

/-! ### Claim C3 (framing violations close the connection) — code bug -/

/-- Claim C3's oversize-control condition is not enforced by the code: a PING
frame declaring a 126-byte payload through the 2-byte extended length form
(header bytes 0x89 0xFE 0x00 0x7E) is accepted — the `payload_length > 125`
check at lines 469-471 runs after 126/127 were remapped to 0, so it can
never fire — and the code even answers with a PONG carrying the 126-byte
payload instead of transitioning to CLOSE. -/
theorem websocket_oversize_control_accepted :
    (processBytes initialFramingState
      ([137, 254, 0, 126] ++ [0, 0, 0, 0] ++ List.replicate 126 7)).1.framing_state ≠
        FramingState.CLOSE ∧
    (processBytes initialFramingState
      ([137, 254, 0, 126] ++ [0, 0, 0, 0] ++ List.replicate 126 7)).2 =
      [.send .pong (List.replicate 126 7)] := by decide

/-! ### Claim C4 (accept key) — confirmed -/

/-- C4: the `Sec-WebSocket-Accept` value is base64(SHA1(key ++ GUID)); on the
RFC sample key it equals the expected constant. -/
theorem websocket_accept_key_sample :
    handshakeAcceptValue "dGhlIHNhbXBsZSBub25jZQ==" = "s3pPLMBiTxaQ9kYGzzhZRbK+xOo=" := by
  decide

/-! ### Claim C6 (closing is a latch) — confirmed -/

/-- C6: a send of type CLOSE sets the `closing` flag; from then on every
further `plugin_send` call (of any type) returns 0 and hands no bytes to the
sink, and the flag stays set. -/
theorem websocket_close_idempotent (st : SendState) (buf : Option (List Nat))
    (pw fl : Bool) (calls : List SendCall) (h : st.hasSink = true) :
    (plugin_send st .close buf pw fl).state.closing = true ∧
    (sendSeq (plugin_send st .close buf pw fl).state calls).1.closing = true ∧
    (sendSeq (plugin_send st .close buf pw fl).state calls).2.1 = [] ∧
    (sendSeq (plugin_send st .close buf pw fl).state calls).2.2 =
      List.replicate calls.length 0 := by
  have hc : (plugin_send st .close buf pw fl).state.closing = true := by
    by_cases hcl : st.closing
    · simp [plugin_send, hcl]
    · simp [plugin_send, h, hcl]
  refine ⟨hc, ?_, ?_, ?_⟩ <;> rw [sendSeq_after_closing _ _ hc]
  exact hc

theorem websocket_close_idempotent_witness :
    ((⟨true, false⟩ : SendState).hasSink = true) ∧
    (sendSeq (plugin_send ⟨true, false⟩ .close none true true).state
      [⟨.text, some [104, 105], true, true⟩]).2.1 = [] ∧
    (sendSeq (plugin_send ⟨true, false⟩ .close none true true).state
      [⟨.text, some [104, 105], true, true⟩]).2.2 = [0] :=
  ⟨rfl,
   (websocket_close_idempotent ⟨true, false⟩ none true true
     [⟨.text, some [104, 105], true, true⟩] rfl).2.2.1,
   (websocket_close_idempotent ⟨true, false⟩ none true true
     [⟨.text, some [104, 105], true, true⟩] rfl).2.2.2⟩

/-! ### Claim C7 (outbound frame encoding) — confirmed -/

/-- C7: with the sink open and `closing` unset, a send emits exactly one
frame: FIN set, MASK clear, the 7/16/64-bit length form chosen by the
payload length, then the payload verbatim; `send(TEXT, "hi")` produces
81 02 68 69. -/
theorem websocket_send_single_frame (st : SendState) (ty : MessageType) (b : List Nat)
    (pw fl : Bool) (h1 : st.hasSink = true) (h2 : st.closing = false) :
    (plugin_send st ty (some b) pw fl).wire =
      (128 + opcodeOfType ty) ::
        (if b.length < 126 then [b.length]
         else if b.length < 65536 then [126, b.length / 256, b.length % 256]
         else [127, b.length / 2 ^ 56 % 256, b.length / 2 ^ 48 % 256,
               b.length / 2 ^ 40 % 256, b.length / 2 ^ 32 % 256, b.length / 2 ^ 24 % 256,
               b.length / 2 ^ 16 % 256, b.length / 2 ^ 8 % 256, b.length % 256]) ++ b ∧
    (plugin_send ⟨true, false⟩ .text (some [104, 105]) true true).wire =
      [129, 2, 104, 105] := by
  refine ⟨?_, by decide⟩
  obtain ⟨hs, cl⟩ := st
  simp only at h1 h2
  subst h1 h2
  have hop : opcodeOfType ty % 16 = opcodeOfType ty := by cases ty <;> rfl
  have hpay : (if 0 < b.length then b else []) = b := by
    cases b <;> simp
  simp only [plugin_send, Bool.and_self, Bool.not_false, Bool.and_true, if_true,
    Option.getD_some, wsFrameHeader, hop, hpay]
  split_ifs with hlt hmid
  · simp [Nat.mod_eq_of_lt (by omega : b.length < 256)]
  · have : b.length / 2 ^ 8 % 256 = b.length / 256 := by omega
    simp [this]
    omega
  · simp

theorem websocket_send_single_frame_witness :
    (plugin_send ⟨true, false⟩ .binary (some [65]) true true).wire =
      (128 + opcodeOfType .binary) ::
        (if ([65] : List Nat).length < 126 then [([65] : List Nat).length]
         else if ([65] : List Nat).length < 65536 then [126, ([65] : List Nat).length / 256,
            ([65] : List Nat).length % 256]
         else [127, ([65] : List Nat).length / 2 ^ 56 % 256, ([65] : List Nat).length / 2 ^ 48 % 256,
               ([65] : List Nat).length / 2 ^ 40 % 256, ([65] : List Nat).length / 2 ^ 32 % 256,
               ([65] : List Nat).length / 2 ^ 24 % 256, ([65] : List Nat).length / 2 ^ 16 % 256,
               ([65] : List Nat).length / 2 ^ 8 % 256, ([65] : List Nat).length % 256]) ++ [65] :=
  (websocket_send_single_frame ⟨true, false⟩ .binary [65] true true rfl rfl).1

/-! ### Claim C10 (empty payload sends return 0) — confirmed -/

/-- C10: a send with payload length 0 returns 0 even on the success path
where the 2-byte header is written and flushed (so a 0 return does not
distinguish an empty-payload frame from the closing/failure cases);
`plugin_close` always returns through this path. -/
theorem websocket_send_empty_payload (st : SendState) (ty : MessageType)
    (buf : Option (List Nat)) (pw fl : Bool) (h : buf = none ∨ buf = some []) :
    (plugin_send st ty buf pw fl).ret = 0 ∧
    (st.hasSink = true → st.closing = false →
      (plugin_send st ty buf pw fl).wire = [128 + opcodeOfType ty % 16, 0]) ∧
    (plugin_close st pw fl).ret = 0 := by
  have hb : buf.getD [] = [] := by rcases h with rfl | rfl <;> rfl
  obtain ⟨hs, cl⟩ := st
  refine ⟨?_, ?_, ?_⟩
  · cases hs <;> cases cl <;> simp [plugin_send, hb]
  · intro h1 h2
    simp only at h1 h2
    subst h1 h2
    simp [plugin_send, hb, wsFrameHeader]
  · cases hs <;> cases cl <;> simp [plugin_close, plugin_send]

theorem websocket_send_empty_payload_witness :
    ((none : Option (List Nat)) = none ∨ (none : Option (List Nat)) = some []) ∧
    (plugin_send ⟨true, false⟩ .ping none true true).ret = 0 :=
  ⟨Or.inl rfl,
   (websocket_send_empty_payload ⟨true, false⟩ .ping none true true (Or.inl rfl)).1⟩

/-! ### Claim C8 (subprotocol parsing) — corrected -/

/-- Claim C8 as stated (split on commas only, names not further split) is
false on the code: `apr_strtok` is called with the separator set comma,
space, tab, so the offer `a b` parses as two protocols where the claim's
comma-split yields the single name `a b`. -/
theorem websocket_parse_protocol_space_counterexample :
    parseProtocols "a b" = ["a", "b"] ∧ claimC8Split "a b" = ["a b"] := by decide

/-- C8 (amended): the offer is tokenized on the separator set comma, space,
tab (so a name can never contain those characters), dropping empty tokens,
preserving order (the tokens' concatenation is a sublist of the input);
`protocol_count` exposes the list length and the first token is pre-selected
as the default `Sec-WebSocket-Protocol` response header before `on_connect`;
for the offer `a, b , c` the count is 3 and the default is `a`. -/
theorem websocket_parse_protocol_separators (s : String) :
    ((strtokAll isProtoSep s.toList).all
      fun t => !t.isEmpty && t.all fun c => !isProtoSep c) = true ∧
    List.Sublist (strtokAll isProtoSep s.toList).join s.toList ∧
    parseProtocols "a, b , c" = ["a", "b", "c"] ∧
    protocolCount "a, b , c" = 3 ∧
    defaultProtocolHeader "a, b , c" = some "a" :=
  ⟨strtokGo_all_ok isProtoSep s.toList [] (by simp),
   by simpa using strtokGo_join_sublist isProtoSep s.toList [],
   by decide, by decide, by decide⟩

/-! ### Claim C9 (connect/disconnect lifecycle) — corrected -/

/-- Claim C9's sentinel is false on the code: when the plugin has no
`on_connect`, `plugin_private` keeps its initializer NULL (line 662), so the
private value in use is null, not a non-null sentinel. -/
theorem websocket_absent_on_connect_null_private :
    (connectPhase none true).2 = none ∧
    (connectPhase none true).1 = [.interim101, .framingLoop, .disconnect none] := by decide

/-- C9 (amended): with `on_connect` absent the core proceeds with a NULL
private value; whenever the upgrade proceeds (absent `on_connect`, or one
returning non-null) the 101 goes out, the framing loop runs, and
`on_disconnect` — when the plugin has one — is invoked exactly once, after
the loop; when `on_connect` returns null, no 101 is emitted, the framing
loop never runs, and `on_disconnect` is not invoked. -/
theorem websocket_connect_lifecycle (v : Nat) (d : Bool) :
    connectPhase none d =
      ([.interim101, .framingLoop] ++ (if d then [.disconnect none] else []), none) ∧
    connectPhase (some (some v)) d =
      ([.interim101, .framingLoop] ++ (if d then [.disconnect (some v)] else []), some v) ∧
    connectPhase (some none) d = ([], none) :=
  ⟨rfl, rfl, rfl⟩

end ModWebsocket
